import Mathlib

/-!
Shallow embedding of `mailmerge/__main__.py` (the `main` function and its
helpers) together with models of the Python standard-library and third-party
functions it calls (`csv.reader`, `email.utils.parseaddr` / `formataddr`,
`email.message.Message`, `smtplib.SMTP`, jinja2 template rendering).

The embedding is event-trace based: a run produces the ordered list of
observable actions (console prints, SMTP network actions, pauses).  Network
outcomes are supplied by an oracle assigning, to each recipient index and SMTP
action, either success or a raised exception carrying a message text.
-/

set_option maxRecDepth 100000

namespace Mailmerge

/-- Character constants, written via code points so that brace and quote
characters never appear literally. -/
def lbrace : Char := Char.ofNat 123

def rbrace : Char := Char.ofNat 125

def commaChar : Char := Char.ofNat 44

def quoteChar : Char := Char.ofNat 34

def nlChar : Char := Char.ofNat 10

def spaceChar : Char := Char.ofNat 32

def ltChar : Char := Char.ofNat 60

def gtChar : Char := Char.ofNat 62

/-- Test whether a character is the ASCII space character; the only whitespace
arising in the modelled inputs. -/
def isSpaceChar (c : Char) : Bool := c = spaceChar

/-- Drop ASCII spaces from both ends of a character list. -/
def trimSpaces (l : List Char) : List Char :=
  ((l.dropWhile isSpaceChar).reverse.dropWhile isSpaceChar).reverse

/-- Split a character list at the first occurrence of `t`: returns the part
before and the part after, or `none` when `t` does not occur.  Models Python
`str.split(t, 1)` succeeding with two parts. -/
def splitFirstOn (t : Char) : List Char → Option (List Char × List Char)
  | [] => none
  | c :: rest =>
    if c = t then some ([], rest)
    else (splitFirstOn t rest).map (fun p => (c :: p.1, p.2))

/-- Models `args.message.read().split('\n', 1)` followed by unpacking into the
pair `(raw_subject, raw_body)`: `none` when the text has no newline (Python
raises `ValueError: not enough values to unpack`). -/
def splitMessage (s : String) : Option (String × String) :=
  (splitFirstOn nlChar s.data).map (fun p => (String.mk p.1, String.mk p.2))

/-- Models Python `email.utils.parseaddr` on the fragment exercised here:
either `display <addr>` (display text before the angle bracket, address
inside it) or a bare address with surrounding spaces dropped.  Richer RFC
2822 forms (quoted display names, comments, address lists) are outside the
modelled fragment. -/
def parseaddr (s : String) : String × String :=
  match splitFirstOn ltChar s.data with
  | none => ("", String.mk (trimSpaces s.data))
  | some (before, rest) =>
    match splitFirstOn gtChar rest with
    | none => ("", "")
    | some (inner, _) => (String.mk (trimSpaces before), String.mk inner)

/-- Models Python `email.utils.formataddr` for display names without RFC 2822
special characters: `Name <email>` when the name is nonempty, otherwise the
bare email. -/
def formataddr (p : String × String) : String :=
  if p.1 = "" then p.2 else p.1 ++ " <" ++ p.2 ++ ">"

/-- State of the CSV field scanner, following the state machine of Python
`csv.reader` with the default dialect (delimiter comma, quote character
double-quote, doubled quotes escaped, non-strict). -/
inductive CsvState where
  | startField
  | inField
  | inQuoted
  | afterQuote
deriving DecidableEq

/-- Field scanner of Python `csv.reader` (default dialect) restricted to a
single line, i.e. to records that do not span lines: `cur` is the field being
accumulated, `acc` the fields already finished. -/
def csvAux : CsvState → List Char → List String → List Char → List String
  | _, cur, acc, [] => acc ++ [String.mk cur]
  | CsvState.startField, cur, acc, c :: rest =>
    if c = quoteChar then csvAux CsvState.inQuoted cur acc rest
    else if c = commaChar then
      csvAux CsvState.startField [] (acc ++ [String.mk cur]) rest
    else csvAux CsvState.inField (cur ++ [c]) acc rest
  | CsvState.inField, cur, acc, c :: rest =>
    if c = commaChar then
      csvAux CsvState.startField [] (acc ++ [String.mk cur]) rest
    else csvAux CsvState.inField (cur ++ [c]) acc rest
  | CsvState.inQuoted, cur, acc, c :: rest =>
    if c = quoteChar then csvAux CsvState.afterQuote cur acc rest
    else csvAux CsvState.inQuoted (cur ++ [c]) acc rest
  | CsvState.afterQuote, cur, acc, c :: rest =>
    if c = quoteChar then csvAux CsvState.inQuoted (cur ++ [c]) acc rest
    else if c = commaChar then
      csvAux CsvState.startField [] (acc ++ [String.mk cur]) rest
    else csvAux CsvState.inField (cur ++ [c]) acc rest

/-- Models one row produced by Python `csv.reader` (default dialect) from one
input line: an empty line yields the empty row (which the source skips with
`if not line: continue`); otherwise the comma-separated, double-quote-aware
field list. -/
def csvParseLine (s : String) : List String :=
  if s.data = [] then [] else csvAux CsvState.startField [] [] s.data

/-- Follows the spec's words, for comparison with `csvParseLine`: "split on
comma", "no quoting rules beyond simple comma-splitting". -/
def specSimpleSplitAux (cur : List Char) : List Char → List String
  | [] => [String.mk cur]
  | c :: rest =>
    if c = commaChar then String.mk cur :: specSimpleSplitAux [] rest
    else specSimpleSplitAux (cur ++ [c]) rest

/-- Follows the spec's words: simple comma-splitting of a line, with no
quoting rules. -/
def specSimpleCommaSplit (s : String) : List String :=
  specSimpleSplitAux [] s.data

/-- Scan for the closing double brace of a jinja2 variable expression:
returns the characters before the first `\x7d\x7d` and the characters after
it (consuming everything when there is no closing brace). -/
def splitAtClose : List Char → List Char × List Char
  | [] => ([], [])
  | [c] => ([c], [])
  | c :: c2 :: rest2 =>
    if c = rbrace ∧ c2 = rbrace then ([], rest2)
    else
      let p := splitAtClose (c2 :: rest2)
      (c :: p.1, p.2)

/-- Fuel-indexed renderer modelling jinja2 `Environment().from_string(t).
render(**kwargs)` on the fragment exercised here: literal text plus
`\x7b\x7b variable \x7d\x7d` substitutions, where an undefined variable
renders as the empty string (jinja2's default `Undefined` behaviour).  The
fuel only serves structural recursion; `renderTemplate` supplies enough. -/
def renderAux (ctx : String → Option String) : Nat → List Char → String
  | 0, _ => ""
  | _ + 1, [] => ""
  | _ + 1, [c] => String.singleton c
  | fuel + 1, c :: c2 :: rest2 =>
    if c = lbrace ∧ c2 = lbrace then
      let p := splitAtClose rest2
      ((ctx (String.mk (trimSpaces p.1))).getD "") ++ renderAux ctx fuel p.2
    else String.singleton c ++ renderAux ctx fuel (c2 :: rest2)

/-- Render a compiled template against a variable context. -/
def renderTemplate (tpl : String) (ctx : String → Option String) : String :=
  renderAux ctx (tpl.data.length + 1) tpl.data

/-- The command-line configuration reaching `main` after argument parsing and
credential prompting: `username`/`password` hold the final values (supplied
or interactively collected); the numeric `--interval` value is not modelled,
only the pause action it causes. -/
structure Args where
  html : Bool
  sender : String
  hostname : String
  port : Nat
  tls : Bool
  username : String
  password : String
  test : Bool
deriving DecidableEq

/-- One observable action of a run: console output (`print` with newline,
`printRaw` for `end=''`), the SMTP network actions, and the inter-send
pause. -/
inductive Event where
  | print (s : String)
  | printRaw (s : String)
  | connect (host : String) (port : Nat)
  | starttls
  | login (username password : String)
  | sendmail (envelopeFrom recipient message : String)
  | sleepPause
deriving DecidableEq

/-- The SMTP actions that can raise inside the per-recipient `try` block. -/
inductive SMTPStep where
  | connect
  | starttls
  | login
  | sendmail
deriving DecidableEq

/-- Network oracle: for a recipient index and an attempted SMTP action,
`none` means the action succeeds and `some e` means it raises an exception
whose printed text is `e`. -/
abbrev Oracle := Nat → SMTPStep → Option String

/-- Whether an event is a network action. -/
def isNetwork : Event → Bool
  | Event.connect _ _ => true
  | Event.starttls => true
  | Event.login _ _ => true
  | Event.sendmail _ _ _ => true
  | _ => false

/-- The text of a `print` event, `none` for any other event. -/
def printOf : Event → Option String
  | Event.print s => some s
  | _ => none

/-- The strings printed with a newline, in trace order. -/
def printedStrings (tr : List Event) : List String :=
  tr.filterMap printOf

/-- Whether an event is an SMTP connection attempt. -/
def isConnect : Event → Bool
  | Event.connect _ _ => true
  | _ => false

/-- Number of SMTP connection attempts in a trace. -/
def countConnects (tr : List Event) : Nat :=
  tr.countP isConnect

/-- The fixed HTML document shell of the source (`html % body`): the module
level `html` string with the rendered body substituted for `%s`. -/
def htmlTemplate (body : String) : String :=
  "<!doctype html>\n<html lang=\"en\">\n<body>\n" ++ body ++ "\n</body>\n</html>\n"

/-- Follows the spec's words, for comparison with `htmlTemplate`: the claimed
"fixed minimal HTML document template". -/
def specMinimalWrap (body : String) : String :=
  "<!doctype html><html><body>" ++ body ++ "</body></html>"

/-- The headers added to the outgoing `Message`, in source order; the `From`
header receives `args.sender` exactly as given on the command line. -/
def buildHeaders (args : Args) (recipient subject : String) :
    List (String × String) :=
  [("From", args.sender), ("To", recipient), ("Subject", subject),
   ("MIME-Version", "1.0"), ("Content-Type", "text/html; charset=\"utf-8\"")]

/-- Models `email.message.Message.as_string()` for string headers and a string
payload: one `Name: value` line per header, a blank line, then the payload. -/
def messageAsString (headers : List (String × String)) (payload : String) :
    String :=
  String.join (headers.map (fun p => p.1 ++ ": " ++ p.2 ++ "\n")) ++ "\n" ++ payload

/-- The serialized outgoing message for one recipient: the five headers plus
the rendered body wrapped in the HTML shell. -/
def buildMessage (args : Args) (recipient subject body : String) : String :=
  messageAsString (buildHeaders args recipient subject) (htmlTemplate body)

/-- The jinja2 keyword arguments (`kwargs`) in effect when rendering for one
recipient: the three sender-derived values fixed for the run plus the three
per-recipient values. -/
def mkCtx (args : Args) (name email : String) : String → Option String :=
  fun v =>
    if v = "name" then some name
    else if v = "email" then some email
    else if v = "recipient" then some (formataddr (name, email))
    else if v = "sender_name" then some (parseaddr args.sender).1
    else if v = "sender_email" then some (parseaddr args.sender).2
    else if v = "sender" then some (formataddr (parseaddr args.sender))
    else none

/-- The progress prefix `'%d / %d: %s... '` printed with `end=''`. -/
def progressStr (i total : Nat) (recipient : String) : String :=
  toString (i + 1) ++ " / " ++ toString total ++ ": " ++ recipient ++ "... "

/-- The trailing part of a live send once the connection (and the TLS
handshake, when enabled) has succeeded: the `sendmail` attempt, then either
`OK` plus the pause or the printed exception text. -/
def sendPart (args : Args) (recipient msg : String)
    (f : SMTPStep → Option String) : List Event :=
  match f SMTPStep.sendmail with
  | some e => [Event.sendmail (parseaddr args.sender).2 recipient msg, Event.print e]
  | none =>
    [Event.sendmail (parseaddr args.sender).2 recipient msg, Event.print "OK",
     Event.sleepPause]

/-- The events of the per-recipient `try`/`except` block in live mode: a fresh
`SMTP(host, port)` connection, then `starttls` and `login` when `--tls` is
set, then the send; the first raised exception ends the block with its text
printed by the `except` handler. -/
def liveSendEvents (args : Args) (recipient msg : String)
    (f : SMTPStep → Option String) : List Event :=
  Event.connect args.hostname args.port ::
    match f SMTPStep.connect with
    | some e => [Event.print e]
    | none =>
      if args.tls then
        match f SMTPStep.starttls with
        | some e => [Event.starttls, Event.print e]
        | none =>
          match f SMTPStep.login with
          | some e =>
            [Event.starttls, Event.login args.username args.password, Event.print e]
          | none =>
            Event.starttls :: Event.login args.username args.password ::
              sendPart args recipient msg f
      else sendPart args recipient msg f

/-- The text printed by the `except` handler for a recipient whose live send
raises, i.e. the first failing SMTP action in attempt order, or `none` when
every attempted action succeeds. -/
def sendFailure (tls : Bool) (f : SMTPStep → Option String) : Option String :=
  match f SMTPStep.connect with
  | some e => some e
  | none =>
    if tls then
      match f SMTPStep.starttls with
      | some e => some e
      | none =>
        match f SMTPStep.login with
        | some e => some e
        | none => f SMTPStep.sendmail
    else f SMTPStep.sendmail

/-- The events of one iteration of the recipient loop, for the already
CSV-parsed field list of the line at index `i`: skip the empty row silently,
process a two-field row, and print the diagnostic for any other row. -/
def recipientEvents (args : Args) (rawSubject rawBody : String) (total : Nat)
    (o : Oracle) (i : Nat) (line : List String) : List Event :=
  match line with
  | [] => []
  | [name, email] =>
    let recipient := formataddr (name, email)
    let ctx := mkCtx args name email
    let subject := renderTemplate rawSubject ctx
    let body := renderTemplate rawBody ctx
    let msg := buildMessage args recipient subject body
    Event.printRaw (progressStr i total recipient) ::
      (if args.test then [Event.print "Testing", Event.print msg]
       else liveSendEvents args recipient msg (o i))
  | fs =>
    [Event.print ("Improperly formatted user: \"" ++ String.intercalate "," fs ++ "\".")]

/-- The per-recipient event segments of the loop, starting at index `i`. -/
def segmentsFrom (args : Args) (rawSubject rawBody : String) (total : Nat)
    (o : Oracle) : Nat → List (List String) → List (List Event)
  | _, [] => []
  | i, line :: rest =>
    recipientEvents args rawSubject rawBody total o i line ::
      segmentsFrom args rawSubject rawBody total o (i + 1) rest

/-- The events of the whole recipient loop: the names-file lines are CSV
parsed up front (`addresses = list(reader(args.names))`), `total` is the
number of rows including blank and malformed ones, and the rows are processed
in file order. -/
def mainLoop (args : Args) (rawSubject rawBody : String) (names : List String)
    (o : Oracle) : List Event :=
  (segmentsFrom args rawSubject rawBody (names.map csvParseLine).length o 0
    (names.map csvParseLine)).flatten

/-- The events preceding the recipient loop: the `TLS enabled.` notice when
`--tls` is set (credential prompting is collapsed into `Args`). -/
def preEvents (args : Args) : List Event :=
  if args.tls then [Event.print "TLS enabled."] else []

/-- One whole run of `main` after argument parsing: `md` is the
`markdown.markdown` conversion (kept abstract), `message` the template file
text, `names` the lines of the names file.  `Except.error` marks the uncaught
`ValueError` of the subject/body unpacking, carrying the events printed
before it. -/
def run (md : String → String) (args : Args) (message : String)
    (names : List String) (o : Oracle) : Except (List Event) (List Event) :=
  match splitMessage message with
  | none => Except.error (preEvents args)
  | some (rawSubject, rawBody0) =>
    Except.ok (preEvents args ++
      mainLoop args rawSubject (if args.html then rawBody0 else md rawBody0) names o)

/-- The event trace of a run, whether or not it aborted. -/
def runTrace (md : String → String) (args : Args) (message : String)
    (names : List String) (o : Oracle) : List Event :=
  match run md args message names o with
  | Except.ok tr => tr
  | Except.error tr => tr

/-- Whether a run completed without an uncaught exception. -/
def runOk (md : String → String) (args : Args) (message : String)
    (names : List String) (o : Oracle) : Bool :=
  match run md args message names o with
  | Except.ok _ => true
  | Except.error _ => false

/-- The recipient record of a parsed row: exactly two fields, kept verbatim. -/
def recordOf : List String → Option (String × String)
  | [a, b] => some (a, b)
  | _ => none

/-- The two-field rows among the parsed lines, i.e. the recipient records
actually processed. -/
def validRecords (lines : List (List String)) : List (String × String) :=
  lines.filterMap recordOf

/-- The strings printed (with newline) by one test-mode loop iteration. -/
def testPrints (args : Args) (rawSubject rawBody : String) (line : List String) :
    List String :=
  match line with
  | [] => []
  | [n, e] =>
    ["Testing",
     buildMessage args (formataddr (n, e))
       (renderTemplate rawSubject (mkCtx args n e))
       (renderTemplate rawBody (mkCtx args n e))]
  | fs => ["Improperly formatted user: \"" ++ String.intercalate "," fs ++ "\"."]

/-- A character list free of the CSV delimiter and quote characters. -/
def cleanChars (l : List Char) : Prop :=
  ∀ c ∈ l, c ≠ commaChar ∧ c ≠ quoteChar

instance (l : List Char) : Decidable (cleanChars l) := by
  unfold cleanChars; infer_instance

/-- A concrete test-mode configuration. -/
def argsTest : Args :=
  ⟨true, "Me <me@x.com>", "localhost", 25, false, "", "", true⟩

/-- A concrete live-mode configuration. -/
def argsLive : Args :=
  ⟨true, "Me <me@x.com>", "localhost", 25, false, "", "", false⟩

/-- A concrete test-mode configuration whose `--sender` value is not in
normal form (leading space). -/
def argsRawSender : Args :=
  ⟨true, " alice@example.com", "localhost", 25, false, "", "", true⟩

/-- The oracle under which every SMTP action succeeds. -/
def allOk : Oracle := fun _ _ => none

/-- The oracle under which the connection attempt for the first recipient
raises `boom` and everything else succeeds. -/
def failConnectFirst : Oracle := fun i s =>
  if i = 0 ∧ s = SMTPStep.connect then some "boom" else none

/-- A concrete live-mode configuration with `--tls` set (so each recipient's
try block also attempts the TLS upgrade and authentication). -/
def argsLiveTls : Args :=
  ⟨true, "Me <me@x.com>", "localhost", 25, true, "user", "pw", false⟩

/-- The oracle under which the authentication attempt for the first recipient
raises `auth failed` and everything else succeeds. -/
def failLoginFirst : Oracle := fun i s =>
  if i = 0 ∧ s = SMTPStep.login then some "auth failed" else none

theorem string_mk_data (s : String) : String.mk s.data = s := rfl

theorem string_empty_append (s : String) : "" ++ s = s := by
  apply congrArg String.mk
  exact rfl

theorem splitAtClose_length (l : List Char) :
    (splitAtClose l).2.length ≤ l.length := by
  induction l with
  | nil => simp [splitAtClose]
  | cons c rest ih =>
    cases rest with
    | nil => simp [splitAtClose]
    | cons c2 rest2 =>
      simp only [splitAtClose]
      by_cases h : c = rbrace ∧ c2 = rbrace
      · rw [if_pos h]
        simp
        omega
      · rw [if_neg h]
        simp only [List.length_cons] at ih ⊢
        omega

theorem splitAtClose_no_rbrace (t : List Char) :
    ∀ l : List Char, rbrace ∉ l →
      splitAtClose (l ++ rbrace :: rbrace :: t) = (l, t) := by
  intro l
  induction l with
  | nil =>
    intro _
    simp [splitAtClose]
  | cons c rest ih =>
    intro h
    have hc : c ≠ rbrace := by
      intro hcc
      exact h (by rw [hcc]; exact List.mem_cons_self _ _)
    have hrest : rbrace ∉ rest := fun hm => h (List.mem_cons_of_mem _ hm)
    have hne : ¬(c = rbrace ∧ (rest ++ rbrace :: rbrace :: t).head (by simp) = rbrace) :=
      fun hand => hc hand.1
    cases rest with
    | nil =>
      simp only [List.nil_append, List.cons_append, splitAtClose]
      rw [if_neg (fun hand => hc hand.1)]
      simp [splitAtClose]
    | cons d rest2 =>
      simp only [List.cons_append, splitAtClose]
      rw [if_neg (fun hand => hc hand.1)]
      have := ih hrest
      simp only [List.cons_append, List.append_eq] at this ⊢
      rw [this]

theorem renderAux_fuel (ctx : String → Option String) :
    ∀ (n m : Nat) (l : List Char), l.length < n → l.length < m →
      renderAux ctx n l = renderAux ctx m l := by
  intro n
  induction n with
  | zero =>
    intro m l h1 _
    exact absurd h1 (Nat.not_lt_zero _)
  | succ k ih =>
    intro m l h1 h2
    cases m with
    | zero => exact absurd h2 (Nat.not_lt_zero _)
    | succ j =>
      cases l with
      | nil => rfl
      | cons c rest =>
        cases rest with
        | nil => rfl
        | cons c2 rest2 =>
          simp only [renderAux]
          by_cases hb : c = lbrace ∧ c2 = lbrace
          · rw [if_pos hb, if_pos hb]
            have hlen := splitAtClose_length rest2
            simp only [List.length_cons] at h1 h2
            congr 1
            exact ih j _ (by omega) (by omega)
          · rw [if_neg hb, if_neg hb]
            simp only [List.length_cons] at h1 h2
            congr 1
            exact ih j _ (by simp only [List.length_cons]; omega)
              (by simp only [List.length_cons]; omega)

theorem renderTemplate_missing_var (v tail : String) (ctx : String → Option String)
    (hv : rbrace ∉ v.data) (hu : ctx (String.mk (trimSpaces v.data)) = none) :
    renderTemplate ("\x7b\x7b" ++ v ++ "\x7d\x7d" ++ tail) ctx =
      renderTemplate tail ctx := by
  have h1 : ("\x7b\x7b" : String).data = [lbrace, lbrace] := by decide
  have h2 : ("\x7d\x7d" : String).data = [rbrace, rbrace] := by decide
  have hdata : ("\x7b\x7b" ++ v ++ "\x7d\x7d" ++ tail).data =
      lbrace :: lbrace :: (v.data ++ rbrace :: rbrace :: tail.data) := by
    simp [String.data_append, h1, h2]
    decide
  unfold renderTemplate
  rw [hdata]
  simp only [renderAux, List.length_cons]
  rw [if_pos (show True ∧ True from ⟨trivial, trivial⟩),
    splitAtClose_no_rbrace tail.data v.data hv]
  simp only [hu, Option.getD_none]
  rw [string_empty_append]
  apply renderAux_fuel
  · simp only [List.length_append, List.length_cons]
    omega
  · omega

theorem csvAux_inField (rest : List Char) :
    ∀ (cs cur : List Char) (acc : List String), (∀ c ∈ cs, c ≠ commaChar) →
      csvAux CsvState.inField cur acc (cs ++ rest) =
        csvAux CsvState.inField (cur ++ cs) acc rest := by
  intro cs
  induction cs with
  | nil =>
    intro cur acc _
    simp
  | cons c cs' ih =>
    intro cur acc h
    have hc : c ≠ commaChar := h c (List.mem_cons_self _ _)
    simp only [List.cons_append, csvAux, List.append_eq]
    rw [if_neg hc, ih (cur ++ [c]) acc (fun d hd => h d (List.mem_cons_of_mem _ hd))]
    simp [List.append_assoc]

theorem csvAux_startField_comma (rest : List Char) (f : List Char)
    (acc : List String) (hf : cleanChars f) :
    csvAux CsvState.startField [] acc (f ++ commaChar :: rest) =
      csvAux CsvState.startField [] (acc ++ [String.mk f]) rest := by
  cases f with
  | nil =>
    simp only [List.nil_append, csvAux]
    rw [if_neg (by decide)]
    simp
  | cons c f' =>
    have h1 : c ≠ commaChar := (hf c (List.mem_cons_self _ _)).1
    have h2 : c ≠ quoteChar := (hf c (List.mem_cons_self _ _)).2
    simp only [List.cons_append, csvAux, List.append_eq]
    rw [if_neg h2, if_neg h1,
      csvAux_inField (commaChar :: rest) f' ([] ++ [c]) acc
        (fun d hd => (hf d (List.mem_cons_of_mem _ hd)).1)]
    simp only [csvAux]
    simp

theorem csvAux_startField_end (f : List Char) (acc : List String)
    (hf : cleanChars f) :
    csvAux CsvState.startField [] acc f = acc ++ [String.mk f] := by
  cases f with
  | nil => simp [csvAux]
  | cons c f' =>
    have h1 : c ≠ commaChar := (hf c (List.mem_cons_self _ _)).1
    have h2 : c ≠ quoteChar := (hf c (List.mem_cons_self _ _)).2
    simp only [csvAux, List.append_eq]
    rw [if_neg h2, if_neg h1]
    have := csvAux_inField [] f' ([] ++ [c]) acc
      (fun d hd => (hf d (List.mem_cons_of_mem _ hd)).1)
    simp only [List.append_nil] at this
    rw [this]
    simp [csvAux]

theorem csvParseLine_pair (a b : String) (ha : cleanChars a.data)
    (hb : cleanChars b.data) :
    csvParseLine (a ++ "," ++ b) = [a, b] := by
  have hc : ("," : String).data = [commaChar] := by decide
  have hdata : (a ++ "," ++ b).data = a.data ++ commaChar :: b.data := by
    simp [String.data_append, hc]
    decide
  unfold csvParseLine
  rw [hdata, if_neg (by simp)]
  rw [csvAux_startField_comma b.data a.data [] ha]
  simp only [List.nil_append]
  rw [csvAux_startField_end b.data [String.mk a.data] hb]
  simp [string_mk_data]

theorem segmentsFrom_getElem (args : Args) (rs rb : String) (total : Nat)
    (o : Oracle) :
    ∀ (lines : List (List String)) (j k : Nat),
      (segmentsFrom args rs rb total o j lines)[k]? =
        (lines[k]?).map (recipientEvents args rs rb total o (j + k)) := by
  intro lines
  induction lines with
  | nil =>
    intro j k
    simp [segmentsFrom]
  | cons l rest ih =>
    intro j k
    cases k with
    | zero => simp [segmentsFrom]
    | succ k2 =>
      simp only [segmentsFrom, List.getElem?_cons_succ]
      rw [ih (j + 1) k2]
      have harith : j + 1 + k2 = j + (k2 + 1) := by omega
      rw [harith]

theorem segmentsFrom_length (args : Args) (rs rb : String) (total : Nat)
    (o : Oracle) :
    ∀ (lines : List (List String)) (j : Nat),
      (segmentsFrom args rs rb total o j lines).length = lines.length := by
  intro lines
  induction lines with
  | nil => intro j; simp [segmentsFrom]
  | cons l rest ih =>
    intro j
    simp [segmentsFrom, ih (j + 1)]

theorem recipientEvents_congr (args : Args) (rs rb : String) (total : Nat)
    (o o2 : Oracle) (i : Nat) (line : List String) (h : o i = o2 i) :
    recipientEvents args rs rb total o i line =
      recipientEvents args rs rb total o2 i line := by
  cases line with
  | nil => rfl
  | cons a t =>
    cases t with
    | nil => rfl
    | cons b t2 =>
      cases t2 with
      | nil =>
        simp only [recipientEvents]
        rw [h]
      | cons c t3 => rfl

theorem recipientEvents_live (args : Args) (rs rb : String) (total : Nat)
    (o : Oracle) (i : Nat) (n em : String) (htest : args.test = false) :
    recipientEvents args rs rb total o i [n, em] =
      Event.printRaw (progressStr i total (formataddr (n, em))) ::
        liveSendEvents args (formataddr (n, em))
          (buildMessage args (formataddr (n, em))
            (renderTemplate rs (mkCtx args n em))
            (renderTemplate rb (mkCtx args n em))) (o i) := by
  simp [recipientEvents, htest]

theorem recipientEvents_test (args : Args) (rs rb : String) (total : Nat)
    (o : Oracle) (i : Nat) (n em : String) (htest : args.test = true) :
    recipientEvents args rs rb total o i [n, em] =
      [Event.printRaw (progressStr i total (formataddr (n, em))),
       Event.print "Testing",
       Event.print (buildMessage args (formataddr (n, em))
         (renderTemplate rs (mkCtx args n em))
         (renderTemplate rb (mkCtx args n em)))] := by
  simp [recipientEvents, htest]

theorem countConnects_sendPart (args : Args) (r m : String)
    (f : SMTPStep → Option String) : countConnects (sendPart args r m f) = 0 := by
  unfold sendPart
  cases f SMTPStep.sendmail <;>
    simp [countConnects, isConnect, List.countP_cons, List.countP_nil]

theorem countConnects_liveSend (args : Args) (r m : String)
    (f : SMTPStep → Option String) :
    countConnects (liveSendEvents args r m f) = 1 := by
  unfold liveSendEvents
  cases hc : f SMTPStep.connect with
  | some e => simp [countConnects, isConnect, List.countP_cons, List.countP_nil]
  | none =>
    by_cases ht : args.tls
    · rw [if_pos ht]
      cases hs : f SMTPStep.starttls with
      | some e => simp [countConnects, isConnect, List.countP_cons, List.countP_nil]
      | none =>
        cases hl : f SMTPStep.login with
        | some e => simp [countConnects, isConnect, List.countP_cons, List.countP_nil]
        | none =>
          have := countConnects_sendPart args r m f
          simp only [countConnects, List.countP_cons] at this ⊢
          simp [isConnect, this]
    · rw [if_neg ht]
      have := countConnects_sendPart args r m f
      simp only [countConnects, List.countP_cons] at this ⊢
      simp [isConnect, this]

theorem countConnects_recipient (args : Args) (rs rb : String) (total : Nat)
    (o : Oracle) (i : Nat) (line : List String) (htest : args.test = false) :
    countConnects (recipientEvents args rs rb total o i line) =
      (validRecords [line]).length := by
  cases line with
  | nil => simp [recipientEvents, countConnects, validRecords, recordOf]
  | cons a t =>
    cases t with
    | nil =>
      simp [recipientEvents, countConnects, isConnect, validRecords, recordOf,
        List.countP_cons, List.countP_nil]
    | cons b t2 =>
      cases t2 with
      | nil =>
        rw [recipientEvents_live args rs rb total o i a b htest]
        have := countConnects_liveSend args (formataddr (a, b))
          (buildMessage args (formataddr (a, b))
            (renderTemplate rs (mkCtx args a b))
            (renderTemplate rb (mkCtx args a b))) (o i)
        simp only [countConnects, List.countP_cons] at this ⊢
        simp [isConnect, this, validRecords, recordOf]
      | cons c t3 =>
        simp [recipientEvents, countConnects, isConnect, validRecords, recordOf,
          List.countP_cons, List.countP_nil]

theorem countConnects_append (t1 t2 : List Event) :
    countConnects (t1 ++ t2) = countConnects t1 + countConnects t2 := by
  simp [countConnects, List.countP_append]

theorem validRecords_cons (l : List (List String)) (x : List String) :
    (validRecords (x :: l)).length =
      (validRecords [x]).length + (validRecords l).length := by
  simp only [validRecords, List.filterMap_cons]
  cases recordOf x with
  | none => simp
  | some r =>
    simp
    omega

theorem countConnects_segments (args : Args) (rs rb : String) (total : Nat)
    (o : Oracle) (htest : args.test = false) :
    ∀ (lines : List (List String)) (j : Nat),
      countConnects (segmentsFrom args rs rb total o j lines).flatten =
        (validRecords lines).length := by
  intro lines
  induction lines with
  | nil => intro j; simp [segmentsFrom, countConnects, validRecords]
  | cons l rest ih =>
    intro j
    simp only [segmentsFrom, List.flatten_cons]
    rw [countConnects_append, countConnects_recipient args rs rb total o j l htest,
      ih (j + 1)]
    exact (validRecords_cons rest l).symm

theorem printedStrings_append (t1 t2 : List Event) :
    printedStrings (t1 ++ t2) = printedStrings t1 ++ printedStrings t2 := by
  simp [printedStrings, List.filterMap_append]

theorem printedStrings_recipient_test (args : Args) (rs rb : String)
    (total : Nat) (o : Oracle) (i : Nat) (line : List String)
    (htest : args.test = true) :
    printedStrings (recipientEvents args rs rb total o i line) =
      testPrints args rs rb line := by
  cases line with
  | nil => simp [recipientEvents, printedStrings, testPrints]
  | cons a t =>
    cases t with
    | nil => simp [recipientEvents, printedStrings, testPrints, printOf]
    | cons b t2 =>
      cases t2 with
      | nil =>
        rw [recipientEvents_test args rs rb total o i a b htest]
        simp [printedStrings, printOf, testPrints]
      | cons c t3 =>
        simp [recipientEvents, printedStrings, testPrints, printOf]

theorem printedStrings_segments_test (args : Args) (rs rb : String)
    (total : Nat) (o : Oracle) (htest : args.test = true) :
    ∀ (lines : List (List String)) (j : Nat),
      printedStrings (segmentsFrom args rs rb total o j lines).flatten =
        (lines.map (testPrints args rs rb)).flatten := by
  intro lines
  induction lines with
  | nil => intro j; simp [segmentsFrom, printedStrings]
  | cons l rest ih =>
    intro j
    simp only [segmentsFrom, List.flatten_cons, List.map_cons]
    rw [printedStrings_append,
      printedStrings_recipient_test args rs rb total o j l htest, ih (j + 1)]

theorem network_free_recipient_test (args : Args) (rs rb : String)
    (total : Nat) (o : Oracle) (i : Nat) (line : List String)
    (htest : args.test = true) :
    ∀ e ∈ recipientEvents args rs rb total o i line, isNetwork e = false := by
  cases line with
  | nil => simp [recipientEvents]
  | cons a t =>
    cases t with
    | nil => simp [recipientEvents, isNetwork]
    | cons b t2 =>
      cases t2 with
      | nil =>
        rw [recipientEvents_test args rs rb total o i a b htest]
        intro e he
        simp only [List.mem_cons, List.not_mem_nil, or_false] at he
        rcases he with h | h | h <;> subst h <;> rfl
      | cons c t3 =>
        simp [recipientEvents, isNetwork]

theorem network_free_segments_test (args : Args) (rs rb : String)
    (total : Nat) (o : Oracle) (htest : args.test = true) :
    ∀ (lines : List (List String)) (j : Nat),
      ∀ e ∈ (segmentsFrom args rs rb total o j lines).flatten,
        isNetwork e = false := by
  intro lines
  induction lines with
  | nil => simp [segmentsFrom]
  | cons l rest ih =>
    intro j e he
    simp only [segmentsFrom, List.flatten_cons, List.mem_append] at he
    rcases he with h | h
    · exact network_free_recipient_test args rs rb total o j l htest e h
    · exact ih (j + 1) e h

theorem liveSend_failure (args : Args) (r m : String)
    (f : SMTPStep → Option String) (e : String)
    (hfail : sendFailure args.tls f = some e) :
    ∃ pre, liveSendEvents args r m f = pre ++ [Event.print e] := by
  unfold sendFailure at hfail
  unfold liveSendEvents sendPart
  cases hc : f SMTPStep.connect with
  | some e2 =>
    simp only [hc, Option.some.injEq] at hfail
    subst hfail
    exact ⟨[Event.connect args.hostname args.port], rfl⟩
  | none =>
    simp only [hc] at hfail
    by_cases ht : args.tls
    · rw [if_pos ht] at hfail
      rw [if_pos ht]
      cases hs : f SMTPStep.starttls with
      | some e2 =>
        simp only [hs, Option.some.injEq] at hfail
        subst hfail
        exact ⟨[Event.connect args.hostname args.port, Event.starttls], rfl⟩
      | none =>
        simp only [hs] at hfail
        cases hl : f SMTPStep.login with
        | some e2 =>
          simp only [hl, Option.some.injEq] at hfail
          subst hfail
          exact ⟨[Event.connect args.hostname args.port, Event.starttls,
            Event.login args.username args.password], rfl⟩
        | none =>
          simp only [hl] at hfail
          simp only [hfail]
          exact ⟨[Event.connect args.hostname args.port, Event.starttls,
            Event.login args.username args.password,
            Event.sendmail (parseaddr args.sender).2 r m], rfl⟩
    · rw [if_neg ht] at hfail
      rw [if_neg ht]
      simp only [hfail]
      exact ⟨[Event.connect args.hostname args.port,
        Event.sendmail (parseaddr args.sender).2 r m], rfl⟩

theorem run_eq_ok (md : String → String) (args : Args) (message : String)
    (names : List String) (o : Oracle) (rs rb0 : String)
    (hsplit : splitMessage message = some (rs, rb0)) :
    run md args message names o = Except.ok (preEvents args ++
      mainLoop args rs (if args.html then rb0 else md rb0) names o) := by
  unfold run
  rw [hsplit]

theorem run_eq_error (md : String → String) (args : Args) (message : String)
    (names : List String) (o : Oracle) (hsplit : splitMessage message = none) :
    run md args message names o = Except.error (preEvents args) := by
  unfold run
  rw [hsplit]

theorem countConnects_pre (args : Args) : countConnects (preEvents args) = 0 := by
  unfold preEvents
  split <;> simp [countConnects, isConnect, List.countP_cons, List.countP_nil]

theorem network_free_pre (args : Args) :
    ∀ e ∈ preEvents args, isNetwork e = false := by
  unfold preEvents
  split
  · intro e he
    simp only [List.mem_singleton] at he
    subst he
    rfl
  · simp

theorem pre_only_tls_notice (args : Args) :
    ∀ e ∈ preEvents args, e = Event.print "TLS enabled." := by
  unfold preEvents
  split
  · intro e he
    simpa using he
  · simp

theorem splitFirstOn_of_not_mem (t : Char) :
    ∀ l : List Char, t ∉ l → splitFirstOn t l = none := by
  intro l
  induction l with
  | nil => intro _; rfl
  | cons c rest ih =>
    intro h
    have hc : c ≠ t := fun hcc => h (by rw [hcc]; exact List.mem_cons_self _ _)
    have hrest : t ∉ rest := fun hm => h (List.mem_cons_of_mem _ hm)
    simp only [splitFirstOn]
    rw [if_neg hc, ih hrest]
    rfl

theorem splitFirstOn_of_mem (t : Char) :
    ∀ l : List Char, t ∈ l → ∃ a b, splitFirstOn t l = some (a, b) ∧
      l = a ++ t :: b ∧ t ∉ a := by
  intro l
  induction l with
  | nil => intro h; exact absurd h (List.not_mem_nil t)
  | cons c rest ih =>
    intro h
    by_cases hc : c = t
    · subst hc
      exact ⟨[], rest, by simp [splitFirstOn], rfl, List.not_mem_nil c⟩
    · have hmem : t ∈ rest := by
        rcases List.mem_cons.mp h with h1 | h1
        · exact absurd h1.symm hc
        · exact h1
      obtain ⟨a, b, h1, h2, h3⟩ := ih hmem
      refine ⟨c :: a, b, ?_, ?_, ?_⟩
      · simp only [splitFirstOn]
        rw [if_neg hc, h1]
        rfl
      · rw [List.cons_append, ← h2]
      · intro hm
        rcases List.mem_cons.mp hm with h4 | h4
        · exact hc h4.symm
        · exact h3 h4

/-- C1, as stated, is false: in live mode with two valid recipients the run
performs two SMTP connection attempts, one inside each loop iteration, not a
single session opened before the loop. -/
theorem c1_counterexample :
    countConnects (runTrace (fun s => s) argsLive "S\nB"
      ["Alice,a@x.com", "Bob,b@y.com"] allOk) = 2 ∧
    countConnects (runTrace (fun s => s) argsLive "S\nB"
      ["Alice,a@x.com", "Bob,b@y.com"] allOk) ≠ 1 := by
  decide

/-- C1 (amended): the delivery driver opens a fresh SMTP connection inside the
loop for every two-field recipient row (and none outside the loop): in live
mode the number of connection attempts of a run equals the number of valid
recipient records, whatever the network outcomes. -/
theorem c1_connection_per_recipient (md : String → String) (args : Args)
    (message : String) (names : List String) (o : Oracle) (rs rb0 : String)
    (htest : args.test = false)
    (hsplit : splitMessage message = some (rs, rb0)) :
    countConnects (runTrace md args message names o) =
      (validRecords (names.map csvParseLine)).length := by
  unfold runTrace
  rw [run_eq_ok md args message names o rs rb0 hsplit]
  unfold mainLoop
  rw [countConnects_append, countConnects_pre,
    countConnects_segments args rs (if args.html then rb0 else md rb0)
      (names.map csvParseLine).length o htest (names.map csvParseLine) 0]
  simp

/-- Witness for `c1_connection_per_recipient` at a concrete run. -/
theorem c1_witness :
    countConnects (runTrace (fun s => s) argsLive "S\nB" ["Alice,a@x.com"] allOk) =
      (validRecords (["Alice,a@x.com"].map csvParseLine)).length :=
  c1_connection_per_recipient (fun s => s) argsLive "S\nB" ["Alice,a@x.com"]
    allOk "S" "B" rfl (by decide)

/-- C2, as stated, is false: with the connection attempt for the first
recipient raising `boom` (and likewise, under `--tls`, with the
authentication attempt for the first recipient raising `auth failed`), the
error text is printed, the run continues with the second recipient (whose
progress line is printed and whose send succeeds with `OK`), and the process
exits normally. -/
theorem c2_counterexample :
    Event.print "boom" ∈ runTrace (fun s => s) argsLive "S\nB"
      ["Alice,a@x.com", "Bob,b@y.com"] failConnectFirst ∧
    Event.printRaw "2 / 2: Bob <b@y.com>... " ∈ runTrace (fun s => s) argsLive
      "S\nB" ["Alice,a@x.com", "Bob,b@y.com"] failConnectFirst ∧
    Event.print "OK" ∈ runTrace (fun s => s) argsLive "S\nB"
      ["Alice,a@x.com", "Bob,b@y.com"] failConnectFirst ∧
    runOk (fun s => s) argsLive "S\nB" ["Alice,a@x.com", "Bob,b@y.com"]
      failConnectFirst = true ∧
    Event.print "auth failed" ∈ runTrace (fun s => s) argsLiveTls "S\nB"
      ["Alice,a@x.com", "Bob,b@y.com"] failLoginFirst ∧
    Event.printRaw "2 / 2: Bob <b@y.com>... " ∈ runTrace (fun s => s) argsLiveTls
      "S\nB" ["Alice,a@x.com", "Bob,b@y.com"] failLoginFirst ∧
    Event.print "OK" ∈ runTrace (fun s => s) argsLiveTls "S\nB"
      ["Alice,a@x.com", "Bob,b@y.com"] failLoginFirst ∧
    runOk (fun s => s) argsLiveTls "S\nB" ["Alice,a@x.com", "Bob,b@y.com"]
      failLoginFirst = true := by
  decide

/-- C2 (amended): in live mode a connection failure, a TLS-upgrade failure or
an authentication failure at recipient `i` is caught by the per-recipient
handler like any send error: that recipient's events are exactly the progress
line, the attempted SMTP actions up to the failing one, and the printed error
text; and every line of the file still yields its own loop segment, so the
run is never aborted by it. -/
theorem c2_connect_auth_failure_caught (args : Args) (rs rb : String)
    (total : Nat) (o : Oracle) (i : Nat) (n em e : String)
    (lines : List (List String)) (k : Nat) (htest : args.test = false) :
    (o i SMTPStep.connect = some e →
      recipientEvents args rs rb total o i [n, em] =
        [Event.printRaw (progressStr i total (formataddr (n, em))),
         Event.connect args.hostname args.port, Event.print e]) ∧
    (args.tls = true → o i SMTPStep.connect = none →
      o i SMTPStep.starttls = some e →
      recipientEvents args rs rb total o i [n, em] =
        [Event.printRaw (progressStr i total (formataddr (n, em))),
         Event.connect args.hostname args.port, Event.starttls,
         Event.print e]) ∧
    (args.tls = true → o i SMTPStep.connect = none →
      o i SMTPStep.starttls = none → o i SMTPStep.login = some e →
      recipientEvents args rs rb total o i [n, em] =
        [Event.printRaw (progressStr i total (formataddr (n, em))),
         Event.connect args.hostname args.port, Event.starttls,
         Event.login args.username args.password, Event.print e]) ∧
    (segmentsFrom args rs rb total o 0 lines).length = lines.length ∧
    (segmentsFrom args rs rb total o 0 lines)[k]? =
      (lines[k]?).map (recipientEvents args rs rb total o k) := by
  refine ⟨?_, ?_, ?_, segmentsFrom_length args rs rb total o lines 0, ?_⟩
  · intro hconn
    rw [recipientEvents_live args rs rb total o i n em htest]
    unfold liveSendEvents
    simp only [hconn]
  · intro ht hconn hstart
    rw [recipientEvents_live args rs rb total o i n em htest]
    unfold liveSendEvents
    simp only [hconn, ht, hstart, if_true]
  · intro ht hconn hstart hlogin
    rw [recipientEvents_live args rs rb total o i n em htest]
    unfold liveSendEvents
    simp only [hconn, ht, hstart, hlogin, if_true]
  · have h := segmentsFrom_getElem args rs rb total o lines 0 k
    simpa using h

/-- Witness for `c2_connect_auth_failure_caught` at a concrete run whose
first recipient's authentication attempt fails under `--tls`. -/
theorem c2_witness :
    recipientEvents argsLiveTls "S" "B" 2 failLoginFirst 0 ["Alice", "a@x.com"] =
      [Event.printRaw (progressStr 0 2 (formataddr ("Alice", "a@x.com"))),
       Event.connect argsLiveTls.hostname argsLiveTls.port, Event.starttls,
       Event.login argsLiveTls.username argsLiveTls.password,
       Event.print "auth failed"] ∧
    (segmentsFrom argsLiveTls "S" "B" 2 failLoginFirst 0
      [["Alice", "a@x.com"], ["Bob", "b@y.com"]]).length =
      ([["Alice", "a@x.com"], ["Bob", "b@y.com"]] : List (List String)).length ∧
    (segmentsFrom argsLiveTls "S" "B" 2 failLoginFirst 0
      [["Alice", "a@x.com"], ["Bob", "b@y.com"]])[1]? =
      (([["Alice", "a@x.com"], ["Bob", "b@y.com"]] :
        List (List String))[1]?).map
        (recipientEvents argsLiveTls "S" "B" 2 failLoginFirst 1) := by
  have h := c2_connect_auth_failure_caught argsLiveTls "S" "B" 2 failLoginFirst 0
    "Alice" "a@x.com" "auth failed" [["Alice", "a@x.com"], ["Bob", "b@y.com"]] 1
    rfl
  exact ⟨h.2.2.1 rfl (by decide) (by decide) (by decide), h.2.2.2.1, h.2.2.2.2⟩

/-- C3: in live mode an error raised during a recipient's transmission is
caught and its text printed as the last event of that recipient's segment;
the events of every other recipient are unchanged by anything the oracle does
at recipient `i`; and the run still completes normally (returns a full
trace) whenever the template setup succeeded. -/
theorem c3_per_recipient_failure_isolated (args : Args) (rs rb : String)
    (total : Nat) (o o2 : Oracle) (i : Nat) (n em e : String)
    (lines : List (List String)) (k : Nat) (md : String → String)
    (message : String) (names : List String) (rsb : String × String)
    (htest : args.test = false)
    (hagree : ∀ j, j ≠ i → o j = o2 j)
    (hfail : sendFailure args.tls (o i) = some e)
    (hk : k ≠ i)
    (hsplit : splitMessage message = some rsb) :
    (∃ pre, recipientEvents args rs rb total o i [n, em] =
      pre ++ [Event.print e]) ∧
    (segmentsFrom args rs rb total o 0 lines)[k]? =
      (segmentsFrom args rs rb total o2 0 lines)[k]? ∧
    (∃ tr, run md args message names o = Except.ok tr) := by
  obtain ⟨rs1, rb1⟩ := rsb
  refine ⟨?_, ?_, ?_⟩
  · rw [recipientEvents_live args rs rb total o i n em htest]
    obtain ⟨pre, hp⟩ := liveSend_failure args (formataddr (n, em))
      (buildMessage args (formataddr (n, em))
        (renderTemplate rs (mkCtx args n em))
        (renderTemplate rb (mkCtx args n em))) (o i) e hfail
    refine ⟨Event.printRaw (progressStr i total (formataddr (n, em))) :: pre, ?_⟩
    rw [hp]
    rfl
  · rw [segmentsFrom_getElem args rs rb total o lines 0 k,
      segmentsFrom_getElem args rs rb total o2 lines 0 k]
    cases hl : lines[k]? with
    | none => rfl
    | some l =>
      exact congrArg some
        (recipientEvents_congr args rs rb total o o2 (0 + k) l
          (hagree (0 + k) (by omega)))
  · exact ⟨_, run_eq_ok md args message names o rs1 rb1 hsplit⟩

/-- Witness for `c3_per_recipient_failure_isolated` at a concrete run. -/
theorem c3_witness :
    (∃ pre, recipientEvents argsLive "S" "B" 2 failConnectFirst 0
      ["Alice", "a@x.com"] = pre ++ [Event.print "boom"]) ∧
    (segmentsFrom argsLive "S" "B" 2 failConnectFirst 0
      [["Alice", "a@x.com"], ["Bob", "b@y.com"]])[1]? =
      (segmentsFrom argsLive "S" "B" 2 allOk 0
        [["Alice", "a@x.com"], ["Bob", "b@y.com"]])[1]? ∧
    (∃ tr, run (fun s => s) argsLive "S\nB" ["Alice,a@x.com"] failConnectFirst =
      Except.ok tr) :=
  c3_per_recipient_failure_isolated argsLive "S" "B" 2 failConnectFirst allOk 0
    "Alice" "a@x.com" "boom" [["Alice", "a@x.com"], ["Bob", "b@y.com"]] 1
    (fun s => s) "S\nB" ["Alice,a@x.com"] ("S", "B") rfl
    (by intro j hj; funext st; simp [failConnectFirst, allOk, hj])
    (by decide) (by decide) (by decide)

/-- C4, as stated, is false: the From header of the outgoing message holds
the raw `--sender` string (here with its leading space), not the
re-normalized form produced by `parseaddr`/`formataddr`. -/
theorem c4_counterexample :
    buildHeaders argsRawSender "Bob <b@y.com>" "Hi" =
      [("From", " alice@example.com"), ("To", "Bob <b@y.com>"),
       ("Subject", "Hi"), ("MIME-Version", "1.0"),
       ("Content-Type", "text/html; charset=\"utf-8\"")] ∧
    formataddr (parseaddr " alice@example.com") = "alice@example.com" ∧
    (" alice@example.com" : String) ≠ "alice@example.com" := by
  decide

/-- C4 (amended): the From header always carries the raw `--sender` string
exactly as supplied; the re-normalized `(name, email)` form is used only for
the template variables `sender`, `sender_name` and `sender_email` (and the
parsed email as the envelope sender). -/
theorem c4_from_header_raw (args : Args) (recipient subject n em : String) :
    (buildHeaders args recipient subject)[0]? = some ("From", args.sender) ∧
    mkCtx args n em "sender" = some (formataddr (parseaddr args.sender)) ∧
    mkCtx args n em "sender_name" = some (parseaddr args.sender).1 ∧
    mkCtx args n em "sender_email" = some (parseaddr args.sender).2 := by
  refine ⟨rfl, ?_, ?_, ?_⟩ <;> simp [mkCtx]

/-- C5, as stated, is false: the names file is read through `csv.reader`,
which honours double-quote quoting, so the line `"a,b",c` parses to the two
fields `a,b` and `c` and yields a recipient record, while simple
comma-splitting would give three fields and demand a diagnostic instead. -/
theorem c5_counterexample :
    csvParseLine "\"a,b\",c" = ["a,b", "c"] ∧
    specSimpleCommaSplit "\"a,b\",c" = ["\"a", "b\"", "c"] ∧
    recordOf (csvParseLine "\"a,b\",c") = some ("a,b", "c") := by
  decide

/-- C5 (amended): lines are parsed with CSV quoting rules (for
delimiter-free, quote-free fields this coincides with comma-splitting and
preserves both fields verbatim); an empty field list is skipped silently;
any other non-blank field count yields no record plus a printed diagnostic
naming the comma-join of the parsed fields, with processing continuing. -/
theorem c5_csv_line_parsing (args : Args) (rs rb : String) (total : Nat)
    (o : Oracle) (i : Nat) (a b : String) (fs : List String)
    (ha : cleanChars a.data) (hb : cleanChars b.data)
    (hlen : fs.length ≠ 2) (hne : fs ≠ []) :
    csvParseLine (a ++ "," ++ b) = [a, b] ∧
    csvParseLine "" = [] ∧
    recipientEvents args rs rb total o i [] = [] ∧
    recipientEvents args rs rb total o i fs =
      [Event.print ("Improperly formatted user: \"" ++
        String.intercalate "," fs ++ "\".")] := by
  refine ⟨csvParseLine_pair a b ha hb, rfl, rfl, ?_⟩
  cases fs with
  | nil => exact absurd rfl hne
  | cons x t =>
    cases t with
    | nil => rfl
    | cons y t2 =>
      cases t2 with
      | nil => exact absurd rfl hlen
      | cons z t3 => rfl

/-- Witness for `c5_csv_line_parsing` at concrete inputs. -/
theorem c5_witness :
    csvParseLine ("Alice" ++ "," ++ "a@x.com") = ["Alice", "a@x.com"] ∧
    csvParseLine "" = [] ∧
    recipientEvents argsTest "S" "B" 2 allOk 0 [] = [] ∧
    recipientEvents argsTest "S" "B" 2 allOk 0 ["Carol"] =
      [Event.print ("Improperly formatted user: \"" ++
        String.intercalate "," ["Carol"] ++ "\".")] :=
  c5_csv_line_parsing argsTest "S" "B" 2 allOk 0 "Alice" "a@x.com" ["Carol"]
    (by decide) (by decide) (by decide) (by decide)

/-- C6: a test-mode run returns its full trace, attempts no network action
at all, and the loop's printed output is exactly, in input file order, one
`Testing` banner plus one fully serialized message per two-field recipient
row (and one diagnostic per malformed row, nothing for blank rows). -/
theorem c6_test_mode_dry_run (md : String → String) (args : Args)
    (message : String) (names : List String) (o : Oracle) (rs rb0 : String)
    (htest : args.test = true)
    (hsplit : splitMessage message = some (rs, rb0)) :
    run md args message names o = Except.ok (preEvents args ++
      mainLoop args rs (if args.html then rb0 else md rb0) names o) ∧
    (∀ e ∈ runTrace md args message names o, isNetwork e = false) ∧
    printedStrings (mainLoop args rs (if args.html then rb0 else md rb0) names o) =
      ((names.map csvParseLine).map
        (testPrints args rs (if args.html then rb0 else md rb0))).flatten := by
  refine ⟨run_eq_ok md args message names o rs rb0 hsplit, ?_, ?_⟩
  · unfold runTrace
    rw [run_eq_ok md args message names o rs rb0 hsplit]
    intro e he
    rcases List.mem_append.mp he with h | h
    · exact network_free_pre args e h
    · exact network_free_segments_test args rs
        (if args.html then rb0 else md rb0) (names.map csvParseLine).length o
        htest (names.map csvParseLine) 0 e h
  · unfold mainLoop
    exact printedStrings_segments_test args rs
      (if args.html then rb0 else md rb0) (names.map csvParseLine).length o
      htest (names.map csvParseLine) 0

/-- Witness for `c6_test_mode_dry_run` at a concrete run with a valid, a
malformed and a blank line. -/
theorem c6_witness :
    run (fun s => s) argsTest "S\nB" ["Alice,a@x.com", "Carol", ""] allOk =
      Except.ok (preEvents argsTest ++
        mainLoop argsTest "S"
          (if argsTest.html then "B" else (fun s => s) "B")
          ["Alice,a@x.com", "Carol", ""] allOk) ∧
    (∀ e ∈ runTrace (fun s => s) argsTest "S\nB" ["Alice,a@x.com", "Carol", ""]
      allOk, isNetwork e = false) ∧
    printedStrings (mainLoop argsTest "S"
        (if argsTest.html then "B" else (fun s => s) "B")
        ["Alice,a@x.com", "Carol", ""] allOk) =
      ((["Alice,a@x.com", "Carol", ""].map csvParseLine).map
        (testPrints argsTest "S"
          (if argsTest.html then "B" else (fun s => s) "B"))).flatten :=
  c6_test_mode_dry_run (fun s => s) argsTest "S\nB"
    ["Alice,a@x.com", "Carol", ""] allOk "S" "B" rfl (by decide)

/-- C7, as stated, is false: the HTML shell of the source carries a `lang`
attribute and newlines (and a trailing newline), so the payload is not the
body wrapped in the minimal template the claim quotes. -/
theorem c7_counterexample :
    htmlTemplate "X" ≠ specMinimalWrap "X" ∧
    buildMessage argsTest "Bob <b@y.com>" "Hi" "X" =
      messageAsString (buildHeaders argsTest "Bob <b@y.com>" "Hi")
        (htmlTemplate "X") ∧
    htmlTemplate "X" =
      "<!doctype html>\n<html lang=\"en\">\n<body>\nX\n</body>\n</html>\n" := by
  refine ⟨by decide, rfl, rfl⟩

/-- C7 (amended): the serialized outbound message consists of exactly the
headers From, To, Subject, MIME-Version: 1.0 and Content-Type: text/html;
charset="utf-8", a blank line, and a payload equal to the rendered body
wrapped in the source's HTML shell
`<!doctype html>\n<html lang="en">\n<body>\n...\n</body>\n</html>\n`. -/
theorem c7_message_structure (args : Args) (recipient subject body : String) :
    (buildHeaders args recipient subject).map Prod.fst =
      ["From", "To", "Subject", "MIME-Version", "Content-Type"] ∧
    buildMessage args recipient subject body =
      "From: " ++ args.sender ++ "\nTo: " ++ recipient ++ "\nSubject: " ++
        subject ++
        "\nMIME-Version: 1.0\nContent-Type: text/html; charset=\"utf-8\"\n\n" ++
        "<!doctype html>\n<html lang=\"en\">\n<body>\n" ++ body ++
        "\n</body>\n</html>\n" := by
  constructor
  · rfl
  · apply String.ext
    simp [buildMessage, messageAsString, buildHeaders, htmlTemplate,
      String.join, String.data_append]

/-- C8: when `--html` is absent the markdown conversion is applied to the
raw body before template compilation, so the loop renders the template
`md rb0`; when `--html` is present the conversion is skipped and the loop
renders `rb0` itself, byte-identically. -/
theorem c8_markdown_before_compilation (md : String → String) (args : Args)
    (message : String) (names : List String) (o : Oracle) (rs rb0 : String)
    (hsplit : splitMessage message = some (rs, rb0)) :
    (args.html = true → run md args message names o =
      Except.ok (preEvents args ++ mainLoop args rs rb0 names o)) ∧
    (args.html = false → run md args message names o =
      Except.ok (preEvents args ++ mainLoop args rs (md rb0) names o)) := by
  constructor
  · intro h
    rw [run_eq_ok md args message names o rs rb0 hsplit, h]
    simp
  · intro h
    rw [run_eq_ok md args message names o rs rb0 hsplit, h]
    simp

/-- Witness for `c8_markdown_before_compilation` at a concrete run. -/
theorem c8_witness :
    run (fun s => s ++ s) argsTest "S\nB" ["Alice,a@x.com"] allOk =
      Except.ok (preEvents argsTest ++
        mainLoop argsTest "S" "B" ["Alice,a@x.com"] allOk) :=
  (c8_markdown_before_compilation (fun s => s ++ s) argsTest "S\nB"
    ["Alice,a@x.com"] allOk "S" "B" (by decide)).1 rfl

/-- C9: a template variable whose (space-trimmed) name is not bound in the
render context is substituted by the empty string rather than raising, so
the rendered output continues with the rest of the template. -/
theorem c9_undefined_variable_empty (v tail : String)
    (ctx : String → Option String) (hv : rbrace ∉ v.data)
    (hu : ctx (String.mk (trimSpaces v.data)) = none) :
    renderTemplate ("\x7b\x7b" ++ v ++ "\x7d\x7d" ++ tail) ctx =
      "" ++ renderTemplate tail ctx := by
  rw [string_empty_append]
  exact renderTemplate_missing_var v tail ctx hv hu

/-- Witness for `c9_undefined_variable_empty` at a concrete template and the
real per-recipient context. -/
theorem c9_witness :
    renderTemplate ("\x7b\x7b" ++ " missing " ++ "\x7d\x7d" ++ "!")
      (mkCtx argsTest "N" "e@x") =
      "" ++ renderTemplate "!" (mkCtx argsTest "N" "e@x") :=
  c9_undefined_variable_empty " missing " "!" (mkCtx argsTest "N" "e@x")
    (by decide) (by decide)

/-- C10: a message text without any newline makes the run abort during
template setup — the run yields an error having produced at most the TLS
notice, before any recipient line is examined and before any message is
printed or sent; a message with at least one newline always splits into the
subject before the first newline and the body after it. -/
theorem c10_subject_body_split (md : String → String) (args : Args)
    (message : String) (names : List String) (o : Oracle) :
    (nlChar ∉ message.data →
      run md args message names o = Except.error (preEvents args) ∧
      ∀ e ∈ preEvents args, e = Event.print "TLS enabled.") ∧
    (nlChar ∈ message.data →
      ∃ subj body, splitMessage message = some (subj, body) ∧
        message = subj ++ "\n" ++ body ∧ nlChar ∉ subj.data) := by
  constructor
  · intro h
    refine ⟨?_, pre_only_tls_notice args⟩
    apply run_eq_error
    unfold splitMessage
    rw [splitFirstOn_of_not_mem nlChar message.data h]
    rfl
  · intro h
    obtain ⟨a, b, h1, h2, h3⟩ := splitFirstOn_of_mem nlChar message.data h
    refine ⟨String.mk a, String.mk b, ?_, ?_, h3⟩
    · unfold splitMessage
      rw [h1]
      rfl
    · apply String.ext
      have hn : ("\n" : String).data = [nlChar] := by decide
      simp [String.data_append, hn, h2]
      decide

/-- Witness for `c10_subject_body_split`, exercising both halves at concrete
messages. -/
theorem c10_witness :
    (run (fun s => s) argsTest "nonewline" ["Alice,a@x.com"] allOk =
      Except.error (preEvents argsTest) ∧
      ∀ e ∈ preEvents argsTest, e = Event.print "TLS enabled.") ∧
    (∃ subj body, splitMessage "L1\nL2\nL3" = some (subj, body) ∧
      "L1\nL2\nL3" = subj ++ "\n" ++ body ∧ nlChar ∉ subj.data) :=
  ⟨(c10_subject_body_split (fun s => s) argsTest "nonewline" ["Alice,a@x.com"]
      allOk).1 (by decide),
   (c10_subject_body_split (fun s => s) argsTest "L1\nL2\nL3" ["Alice,a@x.com"]
      allOk).2 (by decide)⟩

end Mailmerge
